import Mathlib

/-!
Verification of the query layer of the blog server
(`tech-assignment-blog-server/index.mjs`).

The server keeps an in-memory array `posts` loaded from `posts.json` and
exposes four read endpoints: `GET /categories`, `GET /posts/page/:page`,
`GET /posts/category/:category/page/:page` and `GET /posts/:id`.  Each is
embedded below as a pure function on an explicit store (`List Post`);
because the pagination handlers execute `delete post.html` on the shared
records, the resulting change to the store is modelled separately as a
store-transformer.
-/

namespace Blog

/-- A post record of the dataset.  `category` and `html` are `Option String`
because a record may lack either field (an empty-string category is distinct
from a missing one); `html := none` is a record whose `html` property is
absent, e.g. after the server has executed `delete post.html` on it. -/
structure Post where
  id : String
  uid : String
  title : String
  description : String
  author : String
  category : Option String
  author_image : String
  featured_image : String
  first_publication_date : String
  last_publication_date : String
  html : Option String
deriving DecidableEq, Repr

/-- The fixed page size: `const limit = 20` in every pagination handler. -/
def pageLimit : Nat := 20

/-- The value of a record after `delete post.html`: the `html` property is
gone and every other property is untouched. -/
def stripHtml (p : Post) : Post := { p with html := none }

/-- `post.category || "Uncategorized"`: a missing category (undefined) and an
empty-string category are both falsy in JavaScript, so both default to
`"Uncategorized"`; any other string is kept as is. -/
def categoryOrDefault (p : Post) : String :=
  match p.category with
  | none => "Uncategorized"
  | some s => if s = "" then "Uncategorized" else s

/-- Insertion into a JavaScript `Set` (insertion-ordered): adding an element
already present leaves the set unchanged, otherwise it is appended. -/
def setAdd (s : List String) (x : String) : List String :=
  if x ∈ s then s else s ++ [x]

/-- `[...new Set(xs)]`: insert the elements in order, then spread in
insertion order. -/
def newSetList (xs : List String) : List String := xs.foldl setAdd []

/-- `GET /categories` (index.mjs lines 34-45):
`[...new Set(posts.map((post) => post.category || "Uncategorized"))]`. -/
def getAllCategories (posts : List Post) : List String :=
  newSetList (posts.map categoryOrDefault)

/-- Response shape of `GET /posts/page/:page`. -/
structure PageResponse where
  page : Nat
  limit : Nat
  totalPosts : Nat
  totalPages : Nat
  posts : List Post
deriving DecidableEq, Repr

/-- Response shape of `GET /posts/category/:category/page/:page`. -/
structure CategoryPageResponse where
  category : String
  page : Nat
  limit : Nat
  totalPosts : Nat
  totalPages : Nat
  posts : List Post
deriving DecidableEq, Repr

/-- Ceiling division `Math.ceil(n / limit)` for natural `n`. -/
def ceilPages (n : Nat) : Nat := (n + pageLimit - 1) / pageLimit

/-- `GET /posts/page/:page` (index.mjs lines 93-115), for a numeric
`page ≥ 1` (the route passes the parameter through unvalidated; negative
pages hit JavaScript negative-index slicing and are outside this model).
`posts.slice(startIndex, endIndex)` is `drop startIndex` then
`take (endIndex - startIndex)`; the `.map((post) => { delete post.html;
return post; })` yields each sliced record with its `html` property
removed. -/
def getPaginatedPosts (posts : List Post) (page : Nat) : PageResponse :=
  let startIndex := (page - 1) * pageLimit
  let endIndex := startIndex + pageLimit
  { page := page
    limit := pageLimit
    totalPosts := posts.length
    totalPages := ceilPages posts.length
    posts := ((posts.drop startIndex).take (endIndex - startIndex)).map stripHtml }

/-- The Post Store after `GET /posts/page/:page`: the handler's
`delete post.html` executes on the shared records of the slice, so every
stored record with index in `[startIndex, endIndex)` loses its `html`
field; the rest of the store is untouched. -/
def getPaginatedPostsStore (posts : List Post) (page : Nat) : List Post :=
  let startIndex := (page - 1) * pageLimit
  let endIndex := startIndex + pageLimit
  posts.mapIdx (fun i p => if startIndex ≤ i ∧ i < endIndex then stripHtml p else p)

/-- The category filter of index.mjs line 171:
`posts.filter((post) => post.category === category)` — strict, case-sensitive
equality against the stored value; a missing category matches no string. -/
def categoryMatches (c : String) (p : Post) : Bool := p.category == some c

/-- `GET /posts/category/:category/page/:page` (index.mjs lines 164-193),
for numeric `page ≥ 1`: filter by strict equality on `category`, then
paginate the filtered subsequence exactly as `getPaginatedPosts` does,
with counts relative to the filtered subsequence and the requested
category echoed in the response. -/
def getPaginatedPostsByCategory (posts : List Post) (c : String) (page : Nat) :
    CategoryPageResponse :=
  let filteredPosts := posts.filter (categoryMatches c)
  let startIndex := (page - 1) * pageLimit
  let endIndex := startIndex + pageLimit
  { category := c
    page := page
    limit := pageLimit
    totalPosts := filteredPosts.length
    totalPages := ceilPages filteredPosts.length
    posts := ((filteredPosts.drop startIndex).take (endIndex - startIndex)).map stripHtml }

/-- The Post Store after `GET /posts/category/:category/page/:page`: the
records of the served slice of the filtered subsequence lose their `html`
field in place. -/
def getPaginatedPostsByCategoryStore (posts : List Post) (c : String) (page : Nat) :
    List Post :=
  let startIndex := (page - 1) * pageLimit
  let endIndex := startIndex + pageLimit
  let served := ((posts.filter (categoryMatches c)).drop startIndex).take
    (endIndex - startIndex)
  posts.map (fun p => if p ∈ served then stripHtml p else p)

def hexDigit (n : Nat) : Char :=
  if n < 10 then Char.ofNat (48 + n) else Char.ofNat (87 + n)

/-- JSON escaping of one character, as `JSON.stringify` performs on the
characters of a string: quote and backslash are backslash-escaped, the
common control characters get their short escapes, other control
characters get a `\u00XX` escape, everything else is kept verbatim. -/
def jsonEscapeChar (c : Char) : List Char :=
  if c = Char.ofNat 34 then [Char.ofNat 92, Char.ofNat 34]
  else if c = Char.ofNat 92 then [Char.ofNat 92, Char.ofNat 92]
  else if c = Char.ofNat 10 then [Char.ofNat 92, Char.ofNat 110]
  else if c = Char.ofNat 13 then [Char.ofNat 92, Char.ofNat 114]
  else if c = Char.ofNat 9 then [Char.ofNat 92, Char.ofNat 116]
  else if c = Char.ofNat 8 then [Char.ofNat 92, Char.ofNat 98]
  else if c = Char.ofNat 12 then [Char.ofNat 92, Char.ofNat 102]
  else if c.toNat < 32 then
    [Char.ofNat 92, Char.ofNat 117, Char.ofNat 48, Char.ofNat 48,
      hexDigit (c.toNat / 16), hexDigit (c.toNat % 16)]
  else [c]

/-- `JSON.stringify` applied to a string value: the characters escaped and
the whole wrapped in double quotes.  The result is a different string from
the input — it always starts with a quote character. -/
def jsonStringify (s : String) : String :=
  ⟨Char.ofNat 34 :: (s.data.flatMap jsonEscapeChar) ++ [Char.ofNat 34]⟩

/-- `GET /posts/:id` (index.mjs lines 222-233):
`posts.find((p) => p.id === req.params.id)`; `none` models the 404
NotFound response.  On success the response is
`{ ...post, html: JSON.stringify(post.html) }` — a spread copy of the
record whose `html` value is the `JSON.stringify` of the stored one
(when `html` is absent, `JSON.stringify(undefined)` is `undefined` and the
serialized response carries no `html`, modelled as `none`). -/
def getPostById (posts : List Post) (i : String) : Option Post :=
  (posts.find? (fun p => p.id == i)).map
    (fun p => { p with html := p.html.map jsonStringify })

/-- First-seen deduplication, worded from the spec: each name is listed at
its first occurrence and every later duplicate of it is dropped. -/
def firstSeenDedup : List String → List String
  | [] => []
  | x :: xs => x :: (firstSeenDedup xs).filter (fun y => y != x)

/-- A concrete post (the first example record of the API documentation). -/
def post1 : Post :=
  { id := "1"
    uid := "post-1"
    title := "First Blog Post"
    description := "This is the first blog post."
    author := "John Doe"
    category := some "Technology"
    author_image := "http://localhost:3000/images/author1.jpg"
    featured_image := "http://localhost:3000/images/featured1.jpg"
    first_publication_date := "2024-03-08T13:07:03+0000"
    last_publication_date := "2024-03-08T13:07:03+0000"
    html := some "<h1>First Blog Post</h1>" }

/-- A concrete post whose `category` field is missing. -/
def post2 : Post :=
  { id := "2"
    uid := "post-2"
    title := "Second Blog Post"
    description := "This is the second blog post."
    author := "Jane Smith"
    category := none
    author_image := "http://localhost:3000/images/author2.jpg"
    featured_image := "http://localhost:3000/images/featured2.jpg"
    first_publication_date := "2024-03-08T13:07:03+0000"
    last_publication_date := "2024-03-08T13:07:03+0000"
    html := some "<p>Second.</p>" }

/-- A 40-post dataset (the worked example of the spec). -/
def demo40 : List Post := List.replicate 40 post1

/-! ### Helper lemmas about first-seen deduplication and `Set` insertion -/

lemma firstSeenDedup_filter (p : String → Bool) :
    ∀ xs : List String, firstSeenDedup (xs.filter p) = (firstSeenDedup xs).filter p := by
  intro xs
  induction xs with
  | nil => rfl
  | cons x xs ih =>
    by_cases hp : p x
    · rw [List.filter_cons_of_pos hp]
      simp only [firstSeenDedup, List.filter_cons_of_pos hp, ih, List.filter_filter]
      refine congrArg (x :: ·) (List.filter_congr ?_)
      intro a _
      exact Bool.and_comm _ _
    · rw [List.filter_cons_of_neg hp]
      simp only [firstSeenDedup, List.filter_cons_of_neg hp, ih, List.filter_filter]
      refine List.filter_congr ?_
      intro a _
      by_cases hpa : p a
      · have hax : (a != x) = true := by
          rw [bne_iff_ne]
          intro hax
          exact hp (hax ▸ hpa)
        simp [hpa, hax]
      · simp [hpa]

lemma mem_firstSeenDedup (y : String) :
    ∀ xs : List String, y ∈ firstSeenDedup xs ↔ y ∈ xs := by
  intro xs
  induction xs with
  | nil => simp [firstSeenDedup]
  | cons x xs ih =>
    simp only [firstSeenDedup, List.mem_cons, List.mem_filter, bne_iff_ne, ih]
    by_cases hyx : y = x
    · simp [hyx]
    · simp [hyx]

lemma nodup_firstSeenDedup : ∀ xs : List String, (firstSeenDedup xs).Nodup := by
  intro xs
  induction xs with
  | nil => exact List.nodup_nil
  | cons x xs ih =>
    refine List.nodup_cons.mpr ⟨?_, ih.filter _⟩
    simp [List.mem_filter]

lemma foldl_setAdd_eq :
    ∀ (xs acc : List String),
      xs.foldl setAdd acc
        = acc ++ firstSeenDedup (xs.filter (fun y => decide (y ∉ acc))) := by
  intro xs
  induction xs with
  | nil => intro acc; simp [firstSeenDedup]
  | cons x xs ih =>
    intro acc
    by_cases hx : x ∈ acc
    · rw [List.foldl_cons, setAdd, if_pos hx, ih acc,
        List.filter_cons_of_neg (by simp [hx])]
    · rw [List.foldl_cons, setAdd, if_neg hx, ih (acc ++ [x]),
        List.filter_cons_of_pos (by simp [hx]), List.append_assoc]
      refine congrArg (acc ++ ·) ?_
      have hfilter :
          xs.filter (fun y => decide (y ∉ acc ++ [x]))
            = (xs.filter (fun y => decide (y ∉ acc))).filter (fun y => y != x) := by
        rw [List.filter_filter]
        refine List.filter_congr ?_
        intro a _
        by_cases hax : a = x
        · subst hax
          simp
        · by_cases ha : a ∈ acc
          · simp [ha]
          · simp [ha, hax]
      rw [hfilter, firstSeenDedup_filter]
      rfl

lemma newSetList_eq_firstSeenDedup (xs : List String) :
    newSetList xs = firstSeenDedup xs := by
  rw [newSetList, foldl_setAdd_eq, List.nil_append]
  refine congrArg firstSeenDedup ?_
  simp

lemma mem_getAllCategories (posts : List Post) (c : String) :
    c ∈ getAllCategories posts ↔ c ∈ posts.map categoryOrDefault := by
  rw [getAllCategories, newSetList_eq_firstSeenDedup, mem_firstSeenDedup]

/-! ### Helper lemmas about pagination arithmetic -/

/-- The integer computation `(n + limit - 1) / limit` agrees with the
source's `Math.ceil(n / limit)` (exact rational division, then ceiling). -/
lemma ceilPages_eq_ceil (n : Nat) :
    ceilPages n = ⌈(n : ℚ) / (pageLimit : ℚ)⌉₊ := by
  have h20 : (0 : ℚ) < (pageLimit : ℚ) := by norm_num [pageLimit]
  refine le_antisymm ?_ ?_
  · have h := Nat.le_ceil ((n : ℚ) / (pageLimit : ℚ))
    rw [div_le_iff₀ h20] at h
    have h3 : n ≤ ⌈(n : ℚ) / (pageLimit : ℚ)⌉₊ * pageLimit := by exact_mod_cast h
    unfold ceilPages pageLimit at *
    omega
  · refine Nat.ceil_le.mpr ?_
    rw [div_le_iff₀ h20]
    have h3 : n ≤ ceilPages n * pageLimit := by unfold ceilPages pageLimit; omega
    exact_mod_cast h3

/-- Splitting a list into consecutive `pageLimit`-chunks and flattening the
chunks in order reproduces the list. -/
lemma flatten_chunks :
    ∀ (fuel : Nat) (xs : List Post), xs.length ≤ fuel →
      ((List.range (ceilPages xs.length)).map
          (fun i => (xs.drop (i * pageLimit)).take pageLimit)).flatten = xs := by
  intro fuel
  induction fuel with
  | zero =>
    intro xs h
    have hx : xs = [] := List.eq_nil_of_length_eq_zero (Nat.le_zero.mp h)
    subst hx
    simp [ceilPages, pageLimit]
  | succ n ih =>
    intro xs h
    by_cases hxs : xs = []
    · subst hxs
      simp [ceilPages, pageLimit]
    · have hlen : 1 ≤ xs.length := List.length_pos.mpr hxs
      have hceil : ceilPages xs.length = ceilPages (xs.length - pageLimit) + 1 := by
        unfold ceilPages pageLimit
        omega
      rw [hceil, List.range_succ_eq_map, List.map_cons, List.map_map, List.flatten_cons]
      have hhead : (xs.drop (0 * pageLimit)).take pageLimit = xs.take pageLimit := by
        rw [Nat.zero_mul, List.drop_zero]
      have htail :
          (List.range (ceilPages (xs.length - pageLimit))).map
              ((fun i => (xs.drop (i * pageLimit)).take pageLimit) ∘ Nat.succ)
            = (List.range (ceilPages (xs.length - pageLimit))).map
              (fun i => ((xs.drop pageLimit).drop (i * pageLimit)).take pageLimit) := by
        refine List.map_congr_left ?_
        intro i _
        have : (xs.drop pageLimit).drop (i * pageLimit)
            = xs.drop (Nat.succ i * pageLimit) := by
          rw [List.drop_drop]
          refine congrArg (xs.drop ·) ?_
          simp only [Nat.succ_eq_add_one]
          ring
        simp [this]
      rw [hhead, htail]
      have hrec := ih (xs.drop pageLimit)
        (by have hpl : pageLimit = 20 := rfl; rw [List.length_drop]; omega)
      rw [List.length_drop] at hrec
      rw [hrec, List.take_append_drop]

/-! ### Claim theorems -/

/-- C1 (code bug): the spec claims no operation ever mutates the Post Store,
but the pagination handlers execute `delete post.html` on the shared stored
records: after a single `GET /posts/page/1` on a one-post store the stored
record has lost its `html` field (and likewise for the category route). -/
theorem paginate_mutates_store :
    getPaginatedPostsStore [post1] 1 ≠ [post1]
    ∧ getPaginatedPostsStore [post1] 1 = [stripHtml post1]
    ∧ getPaginatedPostsByCategoryStore [post1] "Technology" 1 ≠ [post1]
    ∧ post1.html = some "<h1>First Blog Post</h1>"
    ∧ (stripHtml post1).html = none := by
  decide

/-- C2 (code bug): the spec claims `GetById` returns the stored raw `html`
markup untransformed, but the handler responds with
`{ ...post, html: JSON.stringify(post.html) }`: the returned `html` is the
JSON-quoted copy of the stored string, which differs from it. -/
theorem getPostById_stringifies_html :
    (getPostById [post1] "1").map Post.html
      = some (some (jsonStringify "<h1>First Blog Post</h1>"))
    ∧ post1.html = some "<h1>First Blog Post</h1>"
    ∧ jsonStringify "<h1>First Blog Post</h1>" ≠ "<h1>First Blog Post</h1>" := by
  decide

/-- C8: `GET /categories` returns the category names with no duplicates, in
first-seen order (it equals the first-seen deduplication of the defaulted
category sequence), substituting `"Uncategorized"` for missing/empty
categories, and `"Uncategorized"` occurs exactly once as soon as at least
one such post exists. -/
theorem getAllCategories_spec (posts : List Post) :
    (getAllCategories posts).Nodup
    ∧ (∀ c, c ∈ getAllCategories posts ↔ c ∈ posts.map categoryOrDefault)
    ∧ getAllCategories posts = firstSeenDedup (posts.map categoryOrDefault)
    ∧ ((∃ p ∈ posts, p.category = none ∨ p.category = some "") →
        (getAllCategories posts).count "Uncategorized" = 1) := by
  have heq : getAllCategories posts = firstSeenDedup (posts.map categoryOrDefault) :=
    newSetList_eq_firstSeenDedup _
  have hnodup : (getAllCategories posts).Nodup := heq ▸ nodup_firstSeenDedup _
  refine ⟨hnodup, fun c => mem_getAllCategories posts c, heq, ?_⟩
  rintro ⟨p, hp, hcat⟩
  have hdef : categoryOrDefault p = "Uncategorized" := by
    rcases hcat with h | h <;> simp [categoryOrDefault, h]
  have hmem : "Uncategorized" ∈ getAllCategories posts := by
    rw [mem_getAllCategories]
    exact List.mem_map.mpr ⟨p, hp, hdef⟩
  have hle := List.nodup_iff_count_le_one.mp hnodup "Uncategorized"
  have hpos := List.count_pos_iff.mpr hmem
  omega

/-- C8 witness: on a store holding one post with a missing category,
`"Uncategorized"` is listed exactly once. -/
theorem getAllCategories_spec_witness :
    (getAllCategories [post2]).count "Uncategorized" = 1 :=
  (getAllCategories_spec [post2]).2.2.2 ⟨post2, by decide, Or.inl (by decide)⟩

/-- C9: `GET /posts/:id` responds NotFound (404) exactly when no stored
record's `id` equals the query string, and any record it does return has its
`id` field equal to the query. -/
theorem getPostById_found_iff (posts : List Post) (i : String) :
    (getPostById posts i = none ↔ ∀ p ∈ posts, p.id ≠ i)
    ∧ ∀ r, getPostById posts i = some r → r.id = i := by
  constructor
  · rw [getPostById, Option.map_eq_none', List.find?_eq_none]
    constructor
    · intro h p hp
      have := h p hp
      simpa using this
    · intro h p hp
      simp [h p hp]
  · intro r hr
    rw [getPostById, Option.map_eq_some'] at hr
    obtain ⟨p, hfind, hval⟩ := hr
    have hid : p.id = i := by
      have := List.find?_some hfind
      simpa using this
    rw [← hval]
    exact hid

/-- C9 witness: looking up id `"1"` in a one-post store returns a record
whose `id` is `"1"`. -/
theorem getPostById_found_iff_witness :
    ({ post1 with html := post1.html.map jsonStringify } : Post).id = "1" :=
  (getPostById_found_iff [post1] "1").2 _ (by decide)

/-- C10: the `"Uncategorized"` default is applied only by the category
listing, never by the category filter: a missing/empty stored category is a
strict mismatch for the string `"Uncategorized"`, so when no stored category
literally equals `"Uncategorized"`, filtering by it yields zero posts and an
empty page — even though the listing does include `"Uncategorized"` whenever
a missing/empty-category post exists. -/
theorem uncategorized_filter_empty (posts : List Post) (page : Nat)
    (h : ∀ p ∈ posts, p.category ≠ some "Uncategorized") :
    (getPaginatedPostsByCategory posts "Uncategorized" page).totalPosts = 0
    ∧ (getPaginatedPostsByCategory posts "Uncategorized" page).posts = []
    ∧ (∀ p ∈ posts, (p.category = none ∨ p.category = some "") →
        categoryOrDefault p = "Uncategorized")
    ∧ ((∃ p ∈ posts, p.category = none ∨ p.category = some "") →
        "Uncategorized" ∈ getAllCategories posts) := by
  have hfil : posts.filter (categoryMatches "Uncategorized") = [] := by
    rw [List.filter_eq_nil_iff]
    intro p hp
    simp [categoryMatches, h p hp]
  refine ⟨?_, ?_, ?_, ?_⟩
  · simp [getPaginatedPostsByCategory, hfil]
  · simp [getPaginatedPostsByCategory, hfil]
  · intro p _ hcat
    rcases hcat with hc | hc <;> simp [categoryOrDefault, hc]
  · rintro ⟨p, hp, hcat⟩
    rw [mem_getAllCategories]
    refine List.mem_map.mpr ⟨p, hp, ?_⟩
    rcases hcat with hc | hc <;> simp [categoryOrDefault, hc]

/-- C3: every post of a `Paginate` or `PaginateByCategory` response is a
stored record with exactly the `html` field removed: its `html` is absent
and each of the ten remaining fields is unchanged. -/
theorem paginated_posts_strip_only_html (posts : List Post) (c : String) (page : Nat) :
    (∀ q ∈ (getPaginatedPosts posts page).posts, ∃ p ∈ posts,
      q.html = none ∧ q.id = p.id ∧ q.uid = p.uid ∧ q.title = p.title
      ∧ q.description = p.description ∧ q.author = p.author
      ∧ q.category = p.category ∧ q.author_image = p.author_image
      ∧ q.featured_image = p.featured_image
      ∧ q.first_publication_date = p.first_publication_date
      ∧ q.last_publication_date = p.last_publication_date)
    ∧ (∀ q ∈ (getPaginatedPostsByCategory posts c page).posts, ∃ p ∈ posts,
      q.html = none ∧ q.id = p.id ∧ q.uid = p.uid ∧ q.title = p.title
      ∧ q.description = p.description ∧ q.author = p.author
      ∧ q.category = p.category ∧ q.author_image = p.author_image
      ∧ q.featured_image = p.featured_image
      ∧ q.first_publication_date = p.first_publication_date
      ∧ q.last_publication_date = p.last_publication_date) := by
  constructor
  · intro q hq
    simp only [getPaginatedPosts, List.mem_map] at hq
    obtain ⟨p, hp, rfl⟩ := hq
    exact ⟨p, List.mem_of_mem_drop (List.mem_of_mem_take hp), by simp [stripHtml]⟩
  · intro q hq
    simp only [getPaginatedPostsByCategory, List.mem_map] at hq
    obtain ⟨p, hp, rfl⟩ := hq
    have hp2 : p ∈ posts.filter (categoryMatches c) :=
      List.mem_of_mem_drop (List.mem_of_mem_take hp)
    exact ⟨p, (List.mem_filter.mp hp2).1, by simp [stripHtml]⟩

/-- C3 witness: on a one-post store, the single post of page 1 matches the
stored record on every field but carries no `html`. -/
theorem paginated_posts_strip_only_html_witness :
    ∃ p ∈ [post1],
      (stripHtml post1).html = none ∧ (stripHtml post1).id = p.id
      ∧ (stripHtml post1).uid = p.uid ∧ (stripHtml post1).title = p.title
      ∧ (stripHtml post1).description = p.description
      ∧ (stripHtml post1).author = p.author
      ∧ (stripHtml post1).category = p.category
      ∧ (stripHtml post1).author_image = p.author_image
      ∧ (stripHtml post1).featured_image = p.featured_image
      ∧ (stripHtml post1).first_publication_date = p.first_publication_date
      ∧ (stripHtml post1).last_publication_date = p.last_publication_date :=
  (paginated_posts_strip_only_html [post1] "Technology" 1).1 (stripHtml post1) (by decide)

/-- C4: for every page ≥ 1, the number of posts served by
`GET /posts/page/:page` is `min(limit, max(0, totalPosts - (page-1)*limit))`
with `limit = 20`. -/
theorem paginate_posts_length (posts : List Post) (page : Nat) (h : 1 ≤ page) :
    ((getPaginatedPosts posts page).posts.length : Int)
      = min 20 (max 0 ((posts.length : Int) - ((page : Int) - 1) * 20)) := by
  simp only [getPaginatedPosts, List.length_map, List.length_take, List.length_drop,
    pageLimit]
  have hp : ((page : Int) - 1) = ((page - 1 : Nat) : Int) := by omega
  rw [hp]
  omega

/-- C4 witness: a one-post store serves exactly one post on page 1. -/
theorem paginate_posts_length_witness :
    ((getPaginatedPosts [post1] 1).posts.length : Int)
      = min 20 (max 0 (([post1].length : Int) - (((1 : Nat) : Int) - 1) * 20)) :=
  paginate_posts_length [post1] 1 (by decide)

/-- C5: concatenating the `posts` arrays of `GET /posts/page/p` for
`p = 1, …, totalPages` reproduces the whole store in canonical order,
each stored record exactly once (as its `html`-stripped projection). -/
theorem paginate_join_pages (posts : List Post) :
    ((List.range (getPaginatedPosts posts 1).totalPages).map
        (fun i => (getPaginatedPosts posts (i + 1)).posts)).flatten
      = posts.map stripHtml := by
  have hpages : ∀ i : Nat, (getPaginatedPosts posts (i + 1)).posts
      = ((posts.drop (i * pageLimit)).take pageLimit).map stripHtml := by
    intro i
    simp only [getPaginatedPosts, Nat.add_sub_cancel, Nat.add_sub_cancel_left]
  have htp : (getPaginatedPosts posts 1).totalPages = ceilPages posts.length := rfl
  rw [htp, List.map_congr_left (fun i _ => hpages i)]
  have hmm :
      (List.range (ceilPages posts.length)).map
          (fun i => ((posts.drop (i * pageLimit)).take pageLimit).map stripHtml)
        = ((List.range (ceilPages posts.length)).map
            (fun i => (posts.drop (i * pageLimit)).take pageLimit)).map
            (List.map stripHtml) := by
    rw [List.map_map]
    rfl
  rw [hmm, ← List.map_flatten, flatten_chunks posts.length posts le_rfl]

/-- C6: every `Paginate` response reports `totalPosts` as the full store
size and `totalPages` as `Math.ceil(totalPosts / 20)` (exact rational
division then ceiling), independently of the requested page; on a 40-post
store, page 3 is an empty page with `totalPages` still 2. -/
theorem paginate_totals (posts : List Post) (page : Nat) :
    (getPaginatedPosts posts page).totalPosts = posts.length
    ∧ (getPaginatedPosts posts page).totalPages
        = ⌈(posts.length : ℚ) / (pageLimit : ℚ)⌉₊
    ∧ (posts.length = 40 →
        (getPaginatedPosts posts 3).posts = [] ∧ (getPaginatedPosts posts 3).totalPages = 2) := by
  refine ⟨rfl, ceilPages_eq_ceil posts.length, ?_⟩
  intro h40
  constructor
  · have hnil : posts.drop ((3 - 1) * pageLimit) = [] :=
      List.drop_eq_nil_of_le (by rw [h40]; norm_num [pageLimit])
    simp [getPaginatedPosts, hnil]
  · simp [getPaginatedPosts, ceilPages, pageLimit, h40]

/-- C6 witness: the 40-post example store at page 3. -/
theorem paginate_totals_witness :
    (getPaginatedPosts demo40 3).posts = [] ∧ (getPaginatedPosts demo40 3).totalPages = 2 :=
  (paginate_totals demo40 3).2.2 (by simp [demo40])

/-- C7: for every category string and page ≥ 1, the category route computes
over the subsequence of posts whose stored `category` exactly (and
case-sensitively) equals the query: `totalPosts` is the count of matching
posts, `totalPages` is the ceiling of that count over 20, `posts` is the
page-th slice of the filtered subsequence (html-stripped, as all list views
are), and the response echoes the requested category. -/
theorem paginateByCategory_filtered (posts : List Post) (c : String) (page : Nat)
    (_h : 1 ≤ page) :
    (getPaginatedPostsByCategory posts c page).category = c
    ∧ (getPaginatedPostsByCategory posts c page).totalPosts
        = posts.countP (fun p => p.category == some c)
    ∧ (getPaginatedPostsByCategory posts c page).totalPages
        = ⌈(posts.countP (fun p => p.category == some c) : ℚ) / (pageLimit : ℚ)⌉₊
    ∧ (getPaginatedPostsByCategory posts c page).posts
        = (((posts.filter (fun p => p.category == some c)).drop
              ((page - 1) * pageLimit)).take pageLimit).map stripHtml := by
  have hfil : posts.filter (categoryMatches c)
      = posts.filter (fun p => p.category == some c) := rfl
  have hcount : posts.countP (fun p => p.category == some c)
      = (posts.filter (fun p => p.category == some c)).length :=
    List.countP_eq_length_filter _ _
  refine ⟨rfl, ?_, ?_, ?_⟩
  · simp only [getPaginatedPostsByCategory, hfil, hcount]
  · simp only [getPaginatedPostsByCategory, hfil, hcount]
    exact ceilPages_eq_ceil _
  · simp only [getPaginatedPostsByCategory, hfil, Nat.add_sub_cancel_left]

/-- C7 witness: on a one-post store, filtering by the post's own category on
page 1 serves that post stripped, with matching counts. -/
theorem paginateByCategory_filtered_witness :
    (getPaginatedPostsByCategory [post1] "Technology" 1).category = "Technology"
    ∧ (getPaginatedPostsByCategory [post1] "Technology" 1).totalPosts
        = [post1].countP (fun p => p.category == some "Technology")
    ∧ (getPaginatedPostsByCategory [post1] "Technology" 1).totalPages
        = ⌈([post1].countP (fun p => p.category == some "Technology") : ℚ)
            / (pageLimit : ℚ)⌉₊
    ∧ (getPaginatedPostsByCategory [post1] "Technology" 1).posts
        = ((([post1].filter (fun p => p.category == some "Technology")).drop
              ((1 - 1) * pageLimit)).take pageLimit).map stripHtml :=
  paginateByCategory_filtered [post1] "Technology" 1 (by decide)

/-- C10 witness: a one-post store with a missing category matches no post
under the `"Uncategorized"` filter, while the listing includes it. -/
theorem uncategorized_filter_empty_witness :
    (getPaginatedPostsByCategory [post2] "Uncategorized" 1).totalPosts = 0
    ∧ (getPaginatedPostsByCategory [post2] "Uncategorized" 1).posts = []
    ∧ (∀ p ∈ [post2], (p.category = none ∨ p.category = some "") →
        categoryOrDefault p = "Uncategorized")
    ∧ ((∃ p ∈ [post2], p.category = none ∨ p.category = some "") →
        "Uncategorized" ∈ getAllCategories [post2]) :=
  uncategorized_filter_empty [post2] 1 (by decide)

end Blog
